import Mathlib

/-!
Shallow embedding of `src/sqldbm.py` (the sqldbm package): a DBM-style
persistent key-value store backed by sqlite.  A table is embedded as the
list of its rows in storage order; each SQL statement issued by the Python
methods is translated to the corresponding pure operation on that list.
The handle and connection lifecycle (`SqliteDbm.sync` / `SqliteDbm.close`,
the view cache in `SqliteDbm.__getitem__`) and the module-level `open`
function (with its filesystem side effects) are embedded as explicit
state-passing functions.
-/

namespace SqlDbm

/-- Byte strings, the BLOB values stored in the `Value` column. -/
abbrev Bytes := List Nat

/-- One stored row of a table: the `Key` column (TEXT, primary key) and the
`Value` column (BLOB, nullable, hence an `Option`). -/
abbrev Row := String × Option Bytes

/-- The rows of one table, in storage order. -/
abbrev TableRows := List Row

/-- Result of `SELECT COUNT(*) FROM table WHERE Key = item`: the number of
rows whose key equals `item`. -/
def countKey (rows : TableRows) (item : String) : Nat :=
  (rows.filter (fun r => r.1 == item)).length

namespace SqliteDbmTable

/-- Embeds `SqliteDbmTable.__contains__`: runs
`SELECT COUNT(*) FROM table WHERE Key = ?` and returns `count == 1`. -/
def contains (rows : TableRows) (item : String) : Bool :=
  countKey rows item == 1

/-- Embeds `SqliteDbmTable.__len__`: runs `SELECT COUNT(*) FROM table` and
returns the row count. -/
def len (rows : TableRows) : Nat :=
  rows.length

/-- Embeds `SqliteDbmTable.__getitem__`: runs
`SELECT Value FROM table WHERE Key = ?`; if `fetchone` yields a row, the
value column of that row is returned (which is `none` when the stored blob
is NULL), otherwise `None` is returned. -/
def getitem (rows : TableRows) (item : String) : Option Bytes :=
  match rows.find? (fun r => r.1 == item) with
  | some r => r.2
  | none => none

/-- Embeds `SqliteDbmTable.__setitem__`: runs
`INSERT INTO table (Key, Value) VALUES (?, ?) ON CONFLICT(Key) DO UPDATE
SET Value=excluded.Value`.  When a row with the key exists the conflict
clause updates its value in place; otherwise a fresh row is appended. -/
def setitem (rows : TableRows) (key : String) (value : Option Bytes) : TableRows :=
  if rows.any (fun r => r.1 == key) then
    rows.map (fun r => if r.1 == key then (r.1, value) else r)
  else
    rows ++ [(key, value)]

/-- Embeds `SqliteDbmTable.__delitem__`: runs
`DELETE FROM table WHERE Key = ?`, removing every row whose key matches. -/
def delitem (rows : TableRows) (key : String) : TableRows :=
  rows.filter (fun r => !(r.1 == key))

/-- Embeds `SqliteDbmTable.__iter__`: runs `SELECT Key FROM table` and
yields the key of each fetched row. -/
def iterKeys (rows : TableRows) : List String :=
  rows.map (fun r => r.1)

/-- Embeds `SqliteDbmTable.keys`: `list(k for k in self)`. -/
def keys (rows : TableRows) : List String :=
  iterKeys rows

/-- The invariant the engine enforces through `Key TEXT PRIMARY KEY UNIQUE
NOT NULL`: no two rows of a table share a key. -/
def KeysUnique (rows : TableRows) : Prop :=
  (iterKeys rows).Nodup

end SqliteDbmTable

/-- Contents of one database file: the named tables it holds, in creation
order.  Each table view obtained from a handle addresses one entry. -/
abbrev Db := List (String × TableRows)

/-- Rows of the named table inside a database file.  A table that was never
written is empty (`CREATE TABLE IF NOT EXISTS` makes it so). -/
def getTable (db : Db) (t : String) : TableRows :=
  match db.find? (fun p => p.1 == t) with
  | some p => p.2
  | none => []

/-- Replace (or create) the named table inside a database file with the
given rows.  This is how a single-statement write issued through a table
view updates the file. -/
def setTable (db : Db) (t : String) (rows : TableRows) : Db :=
  if db.any (fun p => p.1 == t) then
    db.map (fun p => if p.1 == t then (p.1, rows) else p)
  else
    db ++ [(t, rows)]

/-- Effect on the database file of `view.__setitem__` issued through the
view bound to table `t`. -/
def dbSet (db : Db) (t : String) (key : String) (value : Option Bytes) : Db :=
  setTable db t (SqliteDbmTable.setitem (getTable db t) key value)

/-- Effect on the database file of `view.__delitem__` issued through the
view bound to table `t`. -/
def dbDelete (db : Db) (t : String) (key : String) : Db :=
  setTable db t (SqliteDbmTable.delitem (getTable db t) key)

/-- Result of `view.__getitem__` issued through the view bound to table
`t`; a read, so the database file is unchanged. -/
def dbGet (db : Db) (t : String) (key : String) : Option Bytes :=
  SqliteDbmTable.getitem (getTable db t) key

/-- Embeds the `Mode` enum of sqldbm. -/
inductive Mode where
  | OPEN
  | OPEN_CREATE
  | OPEN_CREATE_NEW
  | OPEN_READ_ONLY
deriving DecidableEq

/-- Embeds `Mode.value`, the uri mode string handed to `sqlite3.connect`. -/
def Mode.value : Mode → String
  | .OPEN => "rw"
  | .OPEN_CREATE => "rwc"
  | .OPEN_CREATE_NEW => "rwcn"
  | .OPEN_READ_ONLY => "ro"

/-- Host filesystem state: the database files present, path to contents. -/
abbrev FileSystem := List (String × Db)

/-- Embeds `os.path.exists(path)`. -/
def pathExists (fs : FileSystem) (path : String) : Bool :=
  fs.any (fun p => p.1 == path)

/-- Embeds `os.unlink(path)`: removes the file at `path`. -/
def unlink (fs : FileSystem) (path : String) : FileSystem :=
  fs.filter (fun p => !(p.1 == path))

/-- Embeds `sqlite3.connect` with uri mode: modes `rw` and `ro` require an
existing file and fail otherwise; mode `rwc` creates an empty database file
when none exists.  Returns the possibly extended filesystem and the
contents seen through the fresh connection. -/
def sqliteConnect (fs : FileSystem) (path : String) (mode : String) :
    Except String (FileSystem × Db) :=
  if mode == "rwc" then
    match fs.find? (fun p => p.1 == path) with
    | some p => Except.ok (fs, p.2)
    | none => Except.ok (fs ++ [(path, ([] : Db))], ([] : Db))
  else if mode == "rw" || mode == "ro" then
    match fs.find? (fun p => p.1 == path) with
    | some p => Except.ok (fs, p.2)
    | none => Except.error "unable to open database file"
  else
    Except.error "invalid uri mode"

/-- Embeds the module-level `open(path, mode)` of sqldbm: under
`OPEN_CREATE_NEW` it first unlinks an existing file at `path` and then
proceeds as `OPEN_CREATE`; in every case it finishes by connecting with
the resulting uri mode string. -/
def openDb (fs : FileSystem) (path : String) (mode : Mode) :
    Except String (FileSystem × Db) :=
  let st :=
    if mode = Mode.OPEN_CREATE_NEW then
      ((if pathExists fs path then unlink fs path else fs), Mode.OPEN_CREATE)
    else
      (fs, mode)
  sqliteConnect st.1 path st.2.value

/-- State of the one `sqlite3.Connection` object a handle owns.  Table
views capture a reference to this same object at construction time, so it
is shared between the handle and every view derived from it. -/
structure Connection where
  isOpen : Bool
  data : Db
deriving DecidableEq

/-- Runtime state relevant to the handle lifecycle: the shared connection
object and whether the `db` attribute of the handle still references it
(`close` sets that attribute to `None`). -/
structure World where
  conn : Connection
  handleDb : Bool
deriving DecidableEq

/-- Error message sqlite raises on any cursor use of a closed connection. -/
def closedErr : String :=
  "Cannot operate on a closed database"

namespace SqliteDbm

/-- Embeds `SqliteDbm.sync`: `if self.db is not None: self.db.commit()`.
When the `db` attribute is `None` the body is skipped and the call returns
normally; a commit on a closed connection would raise. -/
def sync (w : World) : Except String World :=
  if w.handleDb then
    if w.conn.isOpen then Except.ok w else Except.error closedErr
  else
    Except.ok w

/-- Embeds `SqliteDbm.close`: `if self.db is not None: commit; close` and
then `self.db = None`.  When the `db` attribute is already `None` only the
final assignment happens and the call returns normally. -/
def close (w : World) : Except String World :=
  if w.handleDb then
    if w.conn.isOpen then
      Except.ok { conn := { w.conn with isOpen := false }, handleDb := false }
    else
      Except.error closedErr
  else
    Except.ok { w with handleDb := false }

end SqliteDbm

/-- Mapping operation issued through a table view after the handle was (or
was not) closed: the view uses the connection object it captured, so the
operation succeeds exactly when that connection is still open.  Read of a
key. -/
def viewGet (w : World) (t : String) (k : String) : Except String (Option Bytes) :=
  if w.conn.isOpen then Except.ok (dbGet w.conn.data t k) else Except.error closedErr

/-- Write of a key through a table view; fails on a closed connection. -/
def viewSet (w : World) (t : String) (k : String) (v : Option Bytes) :
    Except String World :=
  if w.conn.isOpen then
    Except.ok { w with conn := { w.conn with data := dbSet w.conn.data t k v } }
  else
    Except.error closedErr

/-- Delete of a key through a table view; fails on a closed connection. -/
def viewDelete (w : World) (t : String) (k : String) : Except String World :=
  if w.conn.isOpen then
    Except.ok { w with conn := { w.conn with data := dbDelete w.conn.data t k } }
  else
    Except.error closedErr

/-- Membership test through a table view; fails on a closed connection. -/
def viewContains (w : World) (t : String) (k : String) : Except String Bool :=
  if w.conn.isOpen then
    Except.ok (SqliteDbmTable.contains (getTable w.conn.data t) k)
  else
    Except.error closedErr

/-- Row count through a table view; fails on a closed connection. -/
def viewLen (w : World) (t : String) : Except String Nat :=
  if w.conn.isOpen then
    Except.ok (SqliteDbmTable.len (getTable w.conn.data t))
  else
    Except.error closedErr

/-- Key listing through a table view; fails on a closed connection. -/
def viewKeys (w : World) (t : String) : Except String (List String) :=
  if w.conn.isOpen then
    Except.ok (SqliteDbmTable.keys (getTable w.conn.data t))
  else
    Except.error closedErr

/-- World of a freshly opened handle over an empty database file. -/
def freshWorld : World :=
  { conn := { isOpen := true, data := [] }, handleDb := true }

/-- World state after `close` was called on `freshWorld`. -/
def closedWorld : World :=
  { conn := { isOpen := false, data := [] }, handleDb := false }

/-- View-cache state of a handle: the `tables` attribute mapping table name
to the identity of a constructed `SqliteDbmTable` object, plus a counter
supplying the identity of the next constructed object. -/
structure HandleCache where
  tables : List (String × Nat)
  nextId : Nat
deriving DecidableEq

/-- Embeds the `self.tables = {}` assignment in `SqliteDbm.__init__`. -/
def initCache : HandleCache :=
  { tables := [], nextId := 0 }

/-- Embeds `SqliteDbm.__getitem__`: `if table_name in self.tables: return
self.tables[table_name]` and otherwise `return SqliteDbmTable(self.db,
table_name)`.  Constructing a `SqliteDbmTable` yields a fresh object,
modelled by handing out the next identity; note the source stores nothing
back into `self.tables`. -/
def handleGetitem (h : HandleCache) (t : String) : Nat × HandleCache :=
  match h.tables.find? (fun p => p.1 == t) with
  | some p => (p.2, h)
  | none => (h.nextId, { h with nextId := h.nextId + 1 })

namespace SqliteDbmTable

theorem getitem_cons (a : Row) (rows : TableRows) (k : String) :
    getitem (a :: rows) k = if a.1 == k then a.2 else getitem rows k := by
  cases ha : (a.1 == k) <;> simp [getitem, List.find?_cons, ha]

theorem mem_iterKeys_iff_any (rows : TableRows) (k : String) :
    k ∈ iterKeys rows ↔ rows.any (fun r => r.1 == k) = true := by
  simp only [iterKeys]
  constructor
  · intro hk
    rcases List.mem_map.mp hk with ⟨r, hr, hrk⟩
    exact List.any_eq_true.mpr ⟨r, hr, beq_iff_eq.mpr hrk⟩
  · intro ha
    rcases List.any_eq_true.mp ha with ⟨r, hr, hrk⟩
    exact List.mem_map.mpr ⟨r, hr, eq_of_beq hrk⟩

theorem countKey_eq_zero_of_not_mem {rows : TableRows} {k : String}
    (h : k ∉ iterKeys rows) : countKey rows k = 0 := by
  induction rows with
  | nil => rfl
  | cons a rest ih =>
    simp only [iterKeys, List.map_cons, List.mem_cons, not_or] at h
    have ha : (a.1 == k) = false := by
      simp only [beq_eq_false_iff_ne, ne_eq]
      exact fun hc => h.1 hc.symm
    simp only [countKey, List.filter_cons, ha, Bool.false_eq_true, if_false]
    exact ih h.2

theorem getitem_eq_none_of_not_mem {rows : TableRows} {k : String}
    (h : k ∉ iterKeys rows) : getitem rows k = none := by
  have hfind : rows.find? (fun r => r.1 == k) = none := by
    rw [List.find?_eq_none]
    intro x hx hbeq
    exact h ((mem_iterKeys_iff_any rows k).mpr
      (List.any_eq_true.mpr ⟨x, hx, hbeq⟩))
  simp [getitem, hfind]

theorem delitem_of_not_mem {rows : TableRows} {k : String}
    (h : k ∉ iterKeys rows) : delitem rows k = rows := by
  rw [delitem, List.filter_eq_self]
  intro r hr
  simp only [Bool.not_eq_eq_eq_not, Bool.not_true, beq_eq_false_iff_ne, ne_eq]
  intro hc
  exact h (List.mem_map.mpr ⟨r, hr, hc⟩)

theorem countKey_delitem_self (rows : TableRows) (k : String) :
    countKey (delitem rows k) k = 0 := by
  induction rows with
  | nil => rfl
  | cons a rest ih =>
    cases ha : (a.1 == k) with
    | true =>
      rw [delitem, List.filter_cons, if_neg (by simp [ha])]
      exact ih
    | false =>
      rw [delitem, List.filter_cons, if_pos (by simp [ha]),
        countKey, List.filter_cons, if_neg (by simp [ha])]
      exact ih

theorem getitem_map_upd_of_any {rows : TableRows} {k : String} (v : Option Bytes)
    (h : rows.any (fun r => r.1 == k) = true) :
    getitem (rows.map (fun r => if r.1 == k then (r.1, v) else r)) k = v := by
  induction rows with
  | nil => simp at h
  | cons a rest ih =>
    cases ha : (a.1 == k) with
    | true =>
      have ha2 : a.1 = k := eq_of_beq ha
      simp [List.map_cons, ha2, getitem_cons]
    | false =>
      simp only [List.any_cons, ha, Bool.false_or] at h
      rw [List.map_cons]
      have hu : (if (a.1 == k) = true then (a.1, v) else a) = a := if_neg (by simp [ha])
      rw [hu, getitem_cons, if_neg (by simp [ha])]
      exact ih h

theorem getitem_append_single (rows : TableRows) (k : String) (v : Option Bytes)
    (h : rows.any (fun r => r.1 == k) = false) :
    getitem (rows ++ [(k, v)]) k = v := by
  induction rows with
  | nil => simp [getitem_cons]
  | cons a rest ih =>
    simp only [List.any_cons, Bool.or_eq_false_iff] at h
    simp [List.cons_append, getitem_cons, h.1, ih h.2]

theorem getitem_setitem_same (rows : TableRows) (k : String) (v : Option Bytes) :
    getitem (setitem rows k v) k = v := by
  cases h : rows.any (fun r => r.1 == k) with
  | true => simpa [setitem, h] using getitem_map_upd_of_any v h
  | false => simpa [setitem, h] using getitem_append_single rows k v h

theorem countKey_cons (a : Row) (rows : TableRows) (k : String) :
    countKey (a :: rows) k =
      (if a.1 == k then 1 else 0) + countKey rows k := by
  cases ha : (a.1 == k) <;> simp [countKey, List.filter_cons, ha, Nat.add_comm]

theorem countKey_eq_one_of_mem {rows : TableRows} {k : String}
    (hnd : KeysUnique rows) (hm : k ∈ iterKeys rows) : countKey rows k = 1 := by
  induction rows with
  | nil => simp [iterKeys] at hm
  | cons a rest ih =>
    rw [KeysUnique, iterKeys, List.map_cons, List.nodup_cons] at hnd
    rw [iterKeys, List.map_cons, List.mem_cons] at hm
    cases ha : (a.1 == k) with
    | true =>
      have ha2 : a.1 = k := eq_of_beq ha
      rw [countKey_cons, if_pos ha, countKey_eq_zero_of_not_mem (ha2 ▸ hnd.1)]
    | false =>
      have ha2 : a.1 ≠ k := by simpa using ha
      rcases hm with hm | hm
      · exact absurd hm.symm ha2
      · rw [countKey_cons, if_neg (by simp [ha]), ih hnd.2 hm]

theorem fst_upd (k : String) (v : Option Bytes) (r : Row) :
    (if r.1 == k then (r.1, v) else r).1 = r.1 := by
  cases (r.1 == k) <;> simp

theorem iterKeys_map_upd (rows : TableRows) (k : String) (v : Option Bytes) :
    iterKeys (rows.map (fun r => if r.1 == k then (r.1, v) else r)) = iterKeys rows := by
  rw [iterKeys, iterKeys, List.map_map]
  exact List.map_congr_left fun r _ => fst_upd k v r

theorem iterKeys_setitem (rows : TableRows) (k : String) (v : Option Bytes) :
    iterKeys (setitem rows k v) =
      if rows.any (fun r => r.1 == k) then iterKeys rows else iterKeys rows ++ [k] := by
  rw [setitem]
  by_cases h : rows.any (fun r => r.1 == k) = true
  · rw [if_pos h, if_pos h]
    exact iterKeys_map_upd rows k v
  · rw [if_neg h, if_neg h]
    simp [iterKeys, List.map_append]

theorem keysUnique_setitem {rows : TableRows} (k : String) (v : Option Bytes)
    (h : KeysUnique rows) : KeysUnique (setitem rows k v) := by
  rw [KeysUnique, iterKeys_setitem]
  by_cases hany : rows.any (fun r => r.1 == k) = true
  · rw [if_pos hany]
    exact h
  · rw [if_neg hany]
    refine List.Nodup.append h (List.nodup_singleton k) ?_
    intro x hx hx2
    rw [List.mem_singleton] at hx2
    subst hx2
    exact hany ((mem_iterKeys_iff_any rows x).mp hx)

theorem mem_iterKeys_setitem_self (rows : TableRows) (k : String) (v : Option Bytes) :
    k ∈ iterKeys (setitem rows k v) := by
  rw [iterKeys_setitem]
  by_cases hany : rows.any (fun r => r.1 == k) = true
  · rw [if_pos hany]
    exact (mem_iterKeys_iff_any rows k).mpr hany
  · rw [if_neg hany]
    exact List.mem_append_right _ (List.mem_singleton.mpr rfl)

theorem any_setitem_self (rows : TableRows) (k : String) (v : Option Bytes) :
    (setitem rows k v).any (fun r => r.1 == k) = true :=
  (mem_iterKeys_iff_any (setitem rows k v) k).mp (mem_iterKeys_setitem_self rows k v)

theorem len_setitem_of_any {rows : TableRows} {k : String} (v : Option Bytes)
    (h : rows.any (fun r => r.1 == k) = true) :
    len (setitem rows k v) = len rows := by
  rw [setitem, if_pos h, len, len, List.length_map]

theorem contains_setitem_same {rows : TableRows} (k : String) (v : Option Bytes)
    (h : KeysUnique rows) : contains (setitem rows k v) k = true := by
  rw [contains,
    countKey_eq_one_of_mem (keysUnique_setitem k v h) (mem_iterKeys_setitem_self rows k v)]
  rfl

theorem contains_iff_getitem_isSome {rows : TableRows} {k : String}
    (hnd : KeysUnique rows) (hv : ∀ r ∈ rows, r.2 ≠ none) :
    contains rows k = true ↔ getitem rows k ≠ none := by
  constructor
  · intro hc
    have hm : k ∈ iterKeys rows := by
      by_contra hnm
      rw [contains, countKey_eq_zero_of_not_mem hnm] at hc
      simp at hc
    rcases List.mem_map.mp hm with ⟨r, hr, hrk⟩
    have hsome : (rows.find? (fun r => r.1 == k)).isSome = true :=
      List.find?_isSome.mpr ⟨r, hr, beq_iff_eq.mpr hrk⟩
    cases hf : rows.find? (fun r => r.1 == k) with
    | none => rw [hf] at hsome; simp at hsome
    | some r2 =>
      rw [getitem, hf]
      exact hv r2 (List.mem_of_find?_eq_some hf)
  · intro hg
    cases hf : rows.find? (fun r => r.1 == k) with
    | none =>
      rw [getitem, hf] at hg
      exact absurd rfl hg
    | some r =>
      have hp := List.find?_some hf
      have hmem : r ∈ rows := List.mem_of_find?_eq_some hf
      have hm : k ∈ iterKeys rows := List.mem_map.mpr ⟨r, hmem, eq_of_beq hp⟩
      rw [contains, countKey_eq_one_of_mem hnd hm]
      rfl

end SqliteDbmTable

theorem getTable_cons (a : String × TableRows) (db : Db) (t : String) :
    getTable (a :: db) t = if a.1 == t then a.2 else getTable db t := by
  cases ha : (a.1 == t) <;> simp [getTable, List.find?_cons, ha]

theorem getTable_map_upd_of_any {db : Db} {t : String} (rows : TableRows)
    (h : db.any (fun p => p.1 == t) = true) :
    getTable (db.map (fun p => if p.1 == t then (p.1, rows) else p)) t = rows := by
  induction db with
  | nil => simp at h
  | cons a rest ih =>
    cases ha : (a.1 == t) with
    | true =>
      have ha2 : a.1 = t := eq_of_beq ha
      simp [List.map_cons, ha2, getTable_cons]
    | false =>
      simp only [List.any_cons, ha, Bool.false_or] at h
      rw [List.map_cons]
      have hu : (if (a.1 == t) = true then (a.1, rows) else a) = a := if_neg (by simp [ha])
      rw [hu, getTable_cons, if_neg (by simp [ha])]
      exact ih h

theorem getTable_append_single (db : Db) (t : String) (rows : TableRows)
    (h : db.any (fun p => p.1 == t) = false) :
    getTable (db ++ [(t, rows)]) t = rows := by
  induction db with
  | nil => simp [getTable_cons]
  | cons a rest ih =>
    simp only [List.any_cons, Bool.or_eq_false_iff] at h
    simp [List.cons_append, getTable_cons, h.1, ih h.2]

theorem getTable_setTable_self (db : Db) (t : String) (rows : TableRows) :
    getTable (setTable db t rows) t = rows := by
  rw [setTable]
  by_cases h : db.any (fun p => p.1 == t) = true
  · rw [if_pos h]
    exact getTable_map_upd_of_any rows h
  · rw [if_neg h]
    exact getTable_append_single db t rows (Bool.eq_false_iff.mpr h)

theorem getTable_map_upd_other {t1 t2 : String} (hb : (t1 == t2) = false)
    (db : Db) (rows : TableRows) :
    getTable (db.map (fun p => if p.1 == t1 then (p.1, rows) else p)) t2 =
      getTable db t2 := by
  induction db with
  | nil => rfl
  | cons a rest ih =>
    rw [List.map_cons]
    have hfst : (if (a.1 == t1) = true then (a.1, rows) else a).1 = a.1 := by
      cases (a.1 == t1) <;> simp
    by_cases ha : (a.1 == t2) = true
    · have ht1 : (a.1 == t1) = false := by
        rw [beq_eq_false_iff_ne]
        intro hc
        exact ne_of_beq_false hb (hc ▸ eq_of_beq ha)
      have hu : (if (a.1 == t1) = true then (a.1, rows) else a) = a := if_neg (by simp [ht1])
      rw [hu, getTable_cons, getTable_cons, if_pos ha, if_pos ha]
    · rw [getTable_cons, getTable_cons, hfst, if_neg ha, if_neg ha]
      exact ih

theorem getTable_append_other {t1 t2 : String} (hb : (t1 == t2) = false)
    (db : Db) (rows : TableRows) :
    getTable (db ++ [(t1, rows)]) t2 = getTable db t2 := by
  induction db with
  | nil => simp [getTable_cons, hb]
  | cons a rest ih =>
    rw [List.cons_append, getTable_cons, getTable_cons]
    by_cases ha : (a.1 == t2) = true
    · rw [if_pos ha, if_pos ha]
    · rw [if_neg ha, if_neg ha]
      exact ih

theorem getTable_setTable_other {t1 t2 : String} (h : t1 ≠ t2)
    (db : Db) (rows : TableRows) :
    getTable (setTable db t1 rows) t2 = getTable db t2 := by
  have hb : (t1 == t2) = false := by simpa using h
  rw [setTable]
  by_cases hany : db.any (fun p => p.1 == t1) = true
  · rw [if_pos hany]
    exact getTable_map_upd_other hb db rows
  · rw [if_neg hany]
    exact getTable_append_other hb db rows

theorem find?_unlink_self (fs : FileSystem) (path : String) :
    (unlink fs path).find? (fun p => p.1 == path) = none := by
  rw [List.find?_eq_none]
  intro x hx
  rcases List.mem_filter.mp hx with ⟨_, hpred⟩
  simp only [Bool.not_eq_eq_eq_not, Bool.not_true] at hpred
  simp [hpred]

theorem find?_eq_none_of_not_exists {fs : FileSystem} {path : String}
    (h : pathExists fs path = false) :
    fs.find? (fun p => p.1 == path) = none := by
  rw [List.find?_eq_none]
  intro x hx hpred
  rw [pathExists] at h
  have : fs.any (fun p => p.1 == path) = true := List.any_eq_true.mpr ⟨x, hx, hpred⟩
  rw [h] at this
  exact Bool.false_ne_true this

theorem not_mem_iterKeys_delitem_self (rows : TableRows) (k : String) :
    k ∉ SqliteDbmTable.iterKeys (SqliteDbmTable.delitem rows k) := by
  intro hm
  rcases List.mem_map.mp hm with ⟨r, hr, hrk⟩
  rcases List.mem_filter.mp hr with ⟨_, hpred⟩
  simp [hrk] at hpred

theorem getitem_delitem_self (rows : TableRows) (k : String) :
    SqliteDbmTable.getitem (SqliteDbmTable.delitem rows k) k = none :=
  SqliteDbmTable.getitem_eq_none_of_not_mem (not_mem_iterKeys_delitem_self rows k)

theorem sqliteConnect_rwc_absent {fs : FileSystem} {path : String}
    (h : fs.find? (fun p => p.1 == path) = none) :
    sqliteConnect fs path "rwc" = Except.ok (fs ++ [(path, ([] : Db))], ([] : Db)) := by
  rw [sqliteConnect, if_pos (by decide), h]

/-- C1: on a table whose keys are unique (the PRIMARY KEY constraint the
engine enforces), for every string key k and byte-string value v, set(k, v)
followed by get(k) on the same view returns v, and contains(k) is true. -/
theorem spec_C1_set_then_get_and_contains (rows : TableRows) (k : String) (v : Bytes)
    (h : SqliteDbmTable.KeysUnique rows) :
    SqliteDbmTable.getitem (SqliteDbmTable.setitem rows k (some v)) k = some v ∧
      SqliteDbmTable.contains (SqliteDbmTable.setitem rows k (some v)) k = true :=
  ⟨SqliteDbmTable.getitem_setitem_same rows k (some v),
    SqliteDbmTable.contains_setitem_same k (some v) h⟩

/-- C1 witness: on the one-row table holding key b, storing the empty byte
string under key a makes get return the empty byte string and contains
return true. -/
theorem spec_C1_witness :
    SqliteDbmTable.KeysUnique [(("b" : String), some ([2] : Bytes))] ∧
      (SqliteDbmTable.getitem
          (SqliteDbmTable.setitem [(("b" : String), some ([2] : Bytes))] "a" (some ([] : Bytes)))
          "a" = some ([] : Bytes) ∧
        SqliteDbmTable.contains
          (SqliteDbmTable.setitem [(("b" : String), some ([2] : Bytes))] "a" (some ([] : Bytes)))
          "a" = true) :=
  ⟨by unfold SqliteDbmTable.KeysUnique; decide,
    spec_C1_set_then_get_and_contains _ "a" []
      (by unfold SqliteDbmTable.KeysUnique; decide)⟩

/-- C2: set(k, v1) followed by set(k, v2) leaves get(k) equal to v2 and the
row count equal to what it was after the first set: the second set is an
in-place upsert that adds no row. -/
theorem spec_C2_overwrite_upsert (rows : TableRows) (k : String) (v1 v2 : Bytes) :
    SqliteDbmTable.getitem
        (SqliteDbmTable.setitem (SqliteDbmTable.setitem rows k (some v1)) k (some v2)) k
      = some v2 ∧
      SqliteDbmTable.len
          (SqliteDbmTable.setitem (SqliteDbmTable.setitem rows k (some v1)) k (some v2))
        = SqliteDbmTable.len (SqliteDbmTable.setitem rows k (some v1)) :=
  ⟨SqliteDbmTable.getitem_setitem_same _ k (some v2),
    SqliteDbmTable.len_setitem_of_any (some v2) (SqliteDbmTable.any_setitem_self rows k (some v1))⟩

/-- C3: get on a key never written to the table returns the no-value
sentinel, and get after deleting the key also returns the sentinel; the
operation is total, never an error. -/
theorem spec_C3_missing_key_get_none (rows rows2 : TableRows) (k : String)
    (h : k ∉ SqliteDbmTable.iterKeys rows) :
    SqliteDbmTable.getitem rows k = none ∧
      SqliteDbmTable.getitem (SqliteDbmTable.delitem rows2 k) k = none :=
  ⟨SqliteDbmTable.getitem_eq_none_of_not_mem h, getitem_delitem_self rows2 k⟩

/-- C3 witness: key a was never written to the one-row table holding key b,
and get returns the sentinel there, also after a delete of a. -/
theorem spec_C3_witness :
    (("a" : String) ∉ SqliteDbmTable.iterKeys [(("b" : String), some ([1] : Bytes))]) ∧
      (SqliteDbmTable.getitem [(("b" : String), some ([1] : Bytes))] "a" = none ∧
        SqliteDbmTable.getitem
          (SqliteDbmTable.delitem [(("a" : String), some ([1] : Bytes))] "a") "a" = none) :=
  ⟨by decide,
    spec_C3_missing_key_get_none [(("b" : String), some ([1] : Bytes))]
      [(("a" : String), some ([1] : Bytes))] "a" (by decide)⟩

/-- C7: after set(k, v) a delete(k) makes contains(k) false, and delete on
a key absent from a table is a no-op returning the table unchanged. -/
theorem spec_C7_delete_semantics (rows rows2 : TableRows) (k : String) (v : Bytes)
    (h : k ∉ SqliteDbmTable.iterKeys rows2) :
    SqliteDbmTable.contains
        (SqliteDbmTable.delitem (SqliteDbmTable.setitem rows k (some v)) k) k = false ∧
      SqliteDbmTable.delitem rows2 k = rows2 := by
  constructor
  · rw [SqliteDbmTable.contains, SqliteDbmTable.countKey_delitem_self]
    rfl
  · exact SqliteDbmTable.delitem_of_not_mem h

/-- C7 witness: set then delete of key a leaves contains false on the empty
table, and deleting a from the one-row table holding key b changes
nothing. -/
theorem spec_C7_witness :
    (("a" : String) ∉ SqliteDbmTable.iterKeys [(("b" : String), some ([1] : Bytes))]) ∧
      (SqliteDbmTable.contains
          (SqliteDbmTable.delitem (SqliteDbmTable.setitem ([] : TableRows) "a" (some [5])) "a")
          "a" = false ∧
        SqliteDbmTable.delitem [(("b" : String), some ([1] : Bytes))] "a"
          = [(("b" : String), some ([1] : Bytes))]) :=
  ⟨by decide,
    spec_C7_delete_semantics [] [(("b" : String), some ([1] : Bytes))] "a" [5] (by decide)⟩

/-- C8: the row count reported by length equals the number of keys the key
iteration yields, and the keys method yields exactly the iteration. -/
theorem spec_C8_len_eq_keys_count (rows : TableRows) :
    SqliteDbmTable.len rows = (SqliteDbmTable.keys rows).length ∧
      SqliteDbmTable.keys rows = SqliteDbmTable.iterKeys rows := by
  constructor
  · simp [SqliteDbmTable.len, SqliteDbmTable.keys, SqliteDbmTable.iterKeys]
  · rfl

/-- C10: on a table with unique keys holding only byte-string (non-NULL)
values, contains(k) is true exactly when get(k) returns a value rather
than the no-value sentinel. -/
theorem spec_C10_contains_iff_get (rows : TableRows) (k : String)
    (hnd : SqliteDbmTable.KeysUnique rows) (hv : ∀ r ∈ rows, r.2 ≠ none) :
    SqliteDbmTable.contains rows k = true ↔ SqliteDbmTable.getitem rows k ≠ none :=
  SqliteDbmTable.contains_iff_getitem_isSome hnd hv

/-- C10 witness: on the one-row table holding key a with a byte value, the
equivalence is the concrete fact that contains is true and get is some. -/
theorem spec_C10_witness :
    SqliteDbmTable.KeysUnique [(("a" : String), some ([1] : Bytes))] ∧
      (∀ r ∈ [(("a" : String), some ([1] : Bytes))], r.2 ≠ none) ∧
      (SqliteDbmTable.contains [(("a" : String), some ([1] : Bytes))] "a" = true ↔
        SqliteDbmTable.getitem [(("a" : String), some ([1] : Bytes))] "a" ≠ none) :=
  ⟨by unfold SqliteDbmTable.KeysUnique; decide, by decide,
    spec_C10_contains_iff_get [(("a" : String), some ([1] : Bytes))] "a"
      (by unfold SqliteDbmTable.KeysUnique; decide) (by decide)⟩

/-- C9: for two distinct table names inside one database file, set and
delete through one table never change the rows of the other, and after
writing key x with value A into the first and key x with value B into the
second, each table returns its own value for x. -/
theorem spec_C9_multi_table_isolation (db : Db) (t1 t2 : String) (h : t1 ≠ t2) :
    (∀ k v, getTable (dbSet db t1 k v) t2 = getTable db t2) ∧
      (∀ k, getTable (dbDelete db t1 k) t2 = getTable db t2) ∧
      (∀ A B : Bytes,
        dbGet (dbSet (dbSet db t1 "x" (some A)) t2 "x" (some B)) t1 "x" = some A ∧
          dbGet (dbSet (dbSet db t1 "x" (some A)) t2 "x" (some B)) t2 "x" = some B) := by
  refine ⟨fun k v => getTable_setTable_other h db _,
    fun k => getTable_setTable_other h db _, fun A B => ⟨?_, ?_⟩⟩
  · simp only [dbGet, dbSet]
    rw [getTable_setTable_other (Ne.symm h), getTable_setTable_self]
    exact SqliteDbmTable.getitem_setitem_same _ "x" (some A)
  · simp only [dbGet, dbSet]
    rw [getTable_setTable_self]
    exact SqliteDbmTable.getitem_setitem_same _ "x" (some B)

/-- C9 witness: concrete tables t1 and t2 in one empty file, key x written
with distinct values through each view, each view reading back its own. -/
theorem spec_C9_witness :
    (("t1" : String) ≠ "t2") ∧
      dbGet (dbSet (dbSet ([] : Db) "t1" "x" (some [1])) "t2" "x" (some [2])) "t1" "x"
        = some [1] ∧
      dbGet (dbSet (dbSet ([] : Db) "t1" "x" (some [1])) "t2" "x" (some [2])) "t2" "x"
        = some [2] :=
  ⟨by decide,
    ((spec_C9_multi_table_isolation [] "t1" "t2" (by decide)).2.2 [1] [2]).1,
    ((spec_C9_multi_table_isolation [] "t1" "t2" (by decide)).2.2 [1] [2]).2⟩

/-- C6: opening any filesystem state at any path with OPEN_CREATE_NEW
always succeeds (a pre-existing file is unlinked first), and the database
seen through the fresh connection is empty: get of every key of every
table returns the no-value sentinel. -/
theorem spec_C6_create_new_truncates (fs : FileSystem) (path : String) :
    ∃ fs2 db2,
      openDb fs path Mode.OPEN_CREATE_NEW = Except.ok (fs2, db2) ∧
        ∀ t k, dbGet db2 t k = none := by
  refine ⟨(if pathExists fs path then unlink fs path else fs) ++ [(path, ([] : Db))],
    ([] : Db), ?_, fun t k => rfl⟩
  simp only [openDb]
  by_cases hex : pathExists fs path = true
  · rw [if_pos hex, if_pos trivial]
    exact sqliteConnect_rwc_absent (find?_unlink_self fs path)
  · rw [if_neg hex, if_pos trivial]
    exact sqliteConnect_rwc_absent (find?_eq_none_of_not_exists (Bool.eq_false_iff.mpr hex))

/-- C4 counterexample: close on a fresh live handle succeeds, and on the
closed handle both sync and a second close return successfully (silent
no-ops guarded by the None check) instead of failing with an error, so not
every post-close operation fails. -/
theorem spec_C4_counterexample :
    SqliteDbm.close freshWorld = Except.ok closedWorld ∧
      SqliteDbm.sync closedWorld = Except.ok closedWorld ∧
      SqliteDbm.close closedWorld = Except.ok closedWorld :=
  ⟨rfl, rfl, rfl⟩

/-- C4 (amended): after close() on a live handle, every mapping operation
issued through any view derived from the handle fails with the
closed-database error, while sync() and a second close() on the handle
itself silently succeed as no-ops. -/
theorem spec_C4_post_close (w w2 : World) (h1 : w.handleDb = true)
    (h2 : w.conn.isOpen = true) (hc : SqliteDbm.close w = Except.ok w2) :
    (∀ t k, viewGet w2 t k = Except.error closedErr) ∧
      (∀ t k v, viewSet w2 t k v = Except.error closedErr) ∧
      (∀ t k, viewDelete w2 t k = Except.error closedErr) ∧
      (∀ t k, viewContains w2 t k = Except.error closedErr) ∧
      (∀ t, viewLen w2 t = Except.error closedErr) ∧
      (∀ t, viewKeys w2 t = Except.error closedErr) ∧
      SqliteDbm.sync w2 = Except.ok w2 ∧
      SqliteDbm.close w2 = Except.ok w2 := by
  simp only [SqliteDbm.close, h1, h2, if_true, Except.ok.injEq] at hc
  subst hc
  exact ⟨fun t k => rfl, fun t k v => rfl, fun t k => rfl, fun t k => rfl,
    fun t => rfl, fun t => rfl, rfl, rfl⟩

/-- C4 witness: on the concrete closed world a view read fails with the
closed-database error while sync on the handle silently succeeds. -/
theorem spec_C4_post_close_witness :
    viewGet closedWorld "data" "a" = Except.error closedErr ∧
      SqliteDbm.sync closedWorld = Except.ok closedWorld :=
  have h := spec_C4_post_close freshWorld closedWorld rfl rfl rfl
  ⟨h.1 "data" "a", h.2.2.2.2.2.2.1⟩

/-- C5: the view cache of a handle is never populated: for every cache
state a table-view request leaves the tables mapping unchanged, and on a
fresh handle two requests for the same table name each construct a new
view object (distinct identities 0 and 1) while the cache stays empty. -/
theorem spec_C5_cache_never_populated :
    (∀ (h : HandleCache) (t : String), (handleGetitem h t).2.tables = h.tables) ∧
      (handleGetitem initCache "data").2.tables = ([] : List (String × Nat)) ∧
      (handleGetitem initCache "data").1 = 0 ∧
      (handleGetitem (handleGetitem initCache "data").2 "data").1 = 1 := by
  refine ⟨?_, rfl, rfl, rfl⟩
  intro h t
  cases hf : h.tables.find? (fun p => p.1 == t) <;> simp [handleGetitem, hf]

end SqlDbm
